import Mathlib

/-!
Shallow embedding of the real-time AI conversation orchestration layer of the
veweb-demo repository (client side, `vew-web/src/services`), covering:

* `ConversationStateMachine` (state-machine.ts)
* `VADService` (vad.ts)
* `BargeInService` (barge-in.ts)
* `StreamingMessageHandler` (streaming-handler.ts)
* `TTSService` (tts.ts)
* `RealtimeAIServiceEnhanced` (realtime-enhanced.ts)
* `AIConversationController.sendMessage` (conversation-controller.ts)

Asynchronous JavaScript code (promises, `setTimeout` callbacks) is embedded as
explicit labelled transition systems: each label corresponds to one synchronous
task segment of the original single-threaded event loop (the code that runs
between two `await` suspension points, or one timer / event callback), and the
environment chooses the interleaving of those segments.
-/

namespace Veweb

/-! ### JavaScript string trimming

`String.prototype.trim` removes leading and trailing whitespace.  The services
use it on ASCII text; we model the ASCII whitespace characters. -/

def isJsSpace (c : Char) : Bool :=
  c == ' ' || c == '\t' || c == '\n' || c == '\r' || c == '\x0b' || c == '\x0c'

def jsTrim (s : String) : String :=
  ⟨((s.data.dropWhile isJsSpace).reverse.dropWhile isJsSpace).reverse⟩

/-! ### Conversation state machine (`state-machine.ts`)

`ConversationStateMachine` keeps a current state, a bounded history
(`MAX_HISTORY = 10`), and notifies listeners on every actual transition.
`interrupt()` transitions `SPEAKING → INTERRUPTED` and schedules a
`setTimeout(() => transition(LISTENING), 100)`.  We record every listener
notification `(newState, prevState)` in `notifLog`, and the number of pending
interrupt timers in `pendingTimers`; the `timerFire` event is the timer
callback running. -/

inductive ConvState where
  | idle
  | listening
  | thinking
  | speaking
  | interrupted
deriving Repr, DecidableEq

structure CSMState where
  current : ConvState
  stateHistory : List ConvState
  notifLog : List (ConvState × ConvState)
  pendingTimers : Nat
deriving Repr, DecidableEq

def CSMState.init : CSMState :=
  { current := .idle, stateHistory := [.idle], notifLog := [], pendingTimers := 0 }

/-- `transition(newState)`: no-op on the same state; otherwise update current
state, push history (capped at 10 entries), and notify listeners. -/
def csmTransition (s : CSMState) (ns : ConvState) : CSMState :=
  if s.current = ns then s
  else
    let h := s.stateHistory ++ [ns]
    { current := ns
      stateHistory := if h.length > 10 then h.tail else h
      notifLog := s.notifLog ++ [(ns, s.current)]
      pendingTimers := s.pendingTimers }

inductive CSMEvent where
  | startListening
  | startThinking
  | startSpeaking
  | interruptOp
  | stopOp
  | timerFire
deriving Repr, DecidableEq

def csmStep (s : CSMState) (e : CSMEvent) : CSMState :=
  match e with
  | .startListening => csmTransition s .listening
  | .startThinking => csmTransition s .thinking
  | .startSpeaking => csmTransition s .speaking
  | .interruptOp =>
      if s.current = .speaking then
        let s1 := csmTransition s .interrupted
        { s1 with pendingTimers := s1.pendingTimers + 1 }
      else s
  | .stopOp => csmTransition s .idle
  | .timerFire =>
      match s.pendingTimers with
      | 0 => s
      | n + 1 =>
        let s1 := csmTransition s .listening
        { s1 with pendingTimers := n }

def runCSM (evs : List CSMEvent) : CSMState :=
  evs.foldl csmStep CSMState.init

/-- The property claimed by the spec invariant: in the notification trace,
every transition into `interrupted` is immediately followed by a transition
into `listening`. -/
def InterruptedThenListening (log : List (ConvState × ConvState)) : Prop :=
  ∀ p ∈ log.zip log.tail, p.1.1 = ConvState.interrupted → p.2.1 = ConvState.listening

instance (log : List (ConvState × ConvState)) : Decidable (InterruptedThenListening log) :=
  inferInstanceAs (Decidable (∀ p ∈ log.zip log.tail, _ → _))

/-! ### VAD service (`vad.ts`)

`VADService.onSpeech(transcript, isFinal)` resets the silence timer, appends
final transcripts to `accumulatedText`, and restarts silence detection.  When
the timer elapses, if the trimmed buffer reaches `minTextLength`, the auto-send
callback receives the trimmed buffer and the buffer is cleared.  `timerActive`
models whether a `setTimeout` is pending; `vadTimerElapse` is its callback
running, returning the text handed to the auto-send callback, if any. -/

structure VADState where
  accumulated : String
  timerActive : Bool
  silenceThreshold : Nat
  minTextLength : Nat
  enabled : Bool
deriving Repr, DecidableEq

def VADState.mkDefault : VADState :=
  { accumulated := "", timerActive := false,
    silenceThreshold := 800, minTextLength := 2, enabled := true }

def vadOnSpeech (s : VADState) (transcript : String) (isFinal : Bool) : VADState :=
  if !s.enabled then s
  else
    let s1 := { s with timerActive := false }
    let s2 := if isFinal then { s1 with accumulated := s1.accumulated ++ transcript } else s1
    { s2 with timerActive := true }

def vadTimerElapse (s : VADState) : VADState × Option String :=
  if s.timerActive then
    if s.minTextLength ≤ (jsTrim s.accumulated).length then
      ({ s with timerActive := false, accumulated := "" }, some (jsTrim s.accumulated))
    else ({ s with timerActive := false }, none)
  else (s, none)

/-! ### Barge-in service (`barge-in.ts`)

`onUserSpeechStart()` checks the enabled flag and the AI-speaking flag; if both
hold it calls `interrupt()`, which stops the TTS service, clears the
AI-speaking flag, and fires the interrupt callback.  We record the externally
visible calls, in order, as a list of actions. -/

structure BargeInState where
  isAISpeaking : Bool
  enabled : Bool
  hasTTS : Bool
  hasCallback : Bool
deriving Repr, DecidableEq

inductive BargeAction where
  | ttsStop
  | interruptCb
deriving Repr, DecidableEq

def bargeInterrupt (s : BargeInState) : BargeInState × List BargeAction :=
  ({ s with isAISpeaking := false },
    (if s.hasTTS then [BargeAction.ttsStop] else []) ++
    (if s.hasCallback then [BargeAction.interruptCb] else []))

def onUserSpeechStart (s : BargeInState) : BargeInState × List BargeAction :=
  if !s.enabled then (s, [])
  else if s.isAISpeaking then bargeInterrupt s
  else (s, [])

/-! ### Streaming message handler (`streaming-handler.ts`)

`handleChunk` appends the chunk content to the last message when that message
is still streaming, and otherwise pushes a fresh streaming assistant message
seeded with the chunk content.  Chunks with non-whitespace content are also
forwarded to `ttsService.play`; we log those submissions in `ttsQueue`. -/

inductive MsgRole where
  | user
  | assistant
deriving Repr, DecidableEq

structure SMsg where
  role : MsgRole
  content : String
  timestamp : Nat
  streaming : Bool
  trigger : Option String
deriving Repr, DecidableEq

structure AIChunk where
  content : String
  chunkIndex : Nat
  timestamp : Nat
deriving Repr, DecidableEq

structure AssemblerState where
  messages : List SMsg
  ttsQueue : List String
deriving Repr, DecidableEq

def handleChunk (s : AssemblerState) (c : AIChunk) : AssemblerState :=
  match s.messages.getLast? with
  | some m =>
    if m.streaming then
      { s with
        messages := s.messages.dropLast ++ [{ m with content := m.content ++ c.content }]
        ttsQueue :=
          if 0 < (jsTrim c.content).length then s.ttsQueue ++ [c.content] else s.ttsQueue }
    else
      { s with
        messages := s.messages ++
          [{ role := .assistant, content := c.content, timestamp := c.timestamp,
             streaming := true, trigger := none }]
        ttsQueue :=
          if 0 < (jsTrim c.content).length then s.ttsQueue ++ [c.content] else s.ttsQueue }
  | none =>
      { s with
        messages := s.messages ++
          [{ role := .assistant, content := c.content, timestamp := c.timestamp,
             streaming := true, trigger := none }]
        ttsQueue :=
          if 0 < (jsTrim c.content).length then s.ttsQueue ++ [c.content] else s.ttsQueue }

def handleChunks (s : AssemblerState) (cs : List AIChunk) : AssemblerState :=
  cs.foldl handleChunk s

/-- `handleComplete`: mark the open streaming message as finished; no further
synthesis is triggered. -/
def handleComplete (s : AssemblerState) : AssemblerState :=
  match s.messages.getLast? with
  | some m =>
      if m.streaming then
        { s with messages := s.messages.dropLast ++ [{ m with streaming := false }] }
      else s
  | none => s

/-- `handleRegularMessage`: append a finished assistant message; submit its
content for synthesis unless it is empty, whitespace-only, or carries a
`trigger` tag. -/
def handleRegularMessage (s : AssemblerState) (message : String)
    (trigger : Option String) (timestamp : Nat) : AssemblerState :=
  { messages := s.messages ++
      [{ role := .assistant, content := message, timestamp := timestamp,
         streaming := false, trigger := trigger }]
    ttsQueue :=
      if trigger = none ∧ 0 < (jsTrim message).length then s.ttsQueue ++ [message]
      else s.ttsQueue }

inductive InboundMsg where
  | chunk (c : AIChunk)
  | complete (fullContent : String) (totalChunks : Nat) (timestamp : Nat)
  | regular (message : String) (trigger : Option String) (timestamp : Nat)
deriving Repr, DecidableEq

/-- `StreamingMessageHandler.handleMessage`, dispatching on the event type. -/
def handleMessage (s : AssemblerState) : InboundMsg → AssemblerState
  | .chunk c => handleChunk s c
  | .complete _ _ _ => handleComplete s
  | .regular message trigger timestamp => handleRegularMessage s message trigger timestamp

/-! ### TTS service (`tts.ts`)

`TTSService` keeps a `synthesisQueue` of promises (submission order), an
`audioQueue` of synthesized audio, and plays audio strictly sequentially.
`play(text)` starts synthesis immediately, pushes the promise, and starts
`processQueue()` when it is not already running.  `processQueue` repeatedly
executes `const audio = await this.synthesisQueue.shift()!` — the promise is
removed from the array *before* the `await` suspends — then pushes the result
to `audioQueue` and starts playback when idle; the loop body has no `catch`,
only a `finally` clearing `isProcessingQueue`.  `stop()` pauses the current
audio and clears both arrays, but cannot reach a promise that `processQueue`
has already shifted out and is awaiting.

Embedding: fragments are numbered in submission order (`nextId`).  `synthQ`
is the `synthesisQueue` array; `pending` holds ids that some `processQueue`
loop has shifted out and is currently awaiting (a list, since a `stop()`
followed by a new `play()` can leave two suspended loops alive).  `resolved`
records synthesis outcomes chosen by the environment (`true` = the fetch
succeeded, `false` = the promise rejected).  `played` logs, in order, the ids
whose playback started.  `statusLog` logs `onStatusChange` invocations.

Events (one per synchronous task segment):
* `play` — a `play(text)` call with non-empty text;
* `resolve id ok` — the synthesis network promise for `id` settles;
* `resume id` — the `processQueue` loop awaiting `id` resumes: on success it
  pushes the audio, starts playback if idle (`playNext` pops the queue head),
  and loops (shifting the next promise or exiting through `finally`); on
  rejection the loop aborts through `finally`;
* `ended` — the current audio's `onended`/`onerror`/play-failure handler runs,
  which calls `playNext()`;
* `stop` — a `stop()` call. -/

structure TTSState where
  nextId : Nat
  synthQ : List Nat
  pending : List Nat
  resolved : List (Nat × Bool)
  audioQ : List Nat
  current : Option Nat
  isPlaying : Bool
  isProcessing : Bool
  played : List Nat
  statusLog : List Bool
deriving Repr, DecidableEq

def TTSState.init : TTSState :=
  { nextId := 0, synthQ := [], pending := [], resolved := [], audioQ := [],
    current := none, isPlaying := false, isProcessing := false,
    played := [], statusLog := [] }

inductive TTSEvent where
  | play
  | resolve (id : Nat) (ok : Bool)
  | resume (id : Nat)
  | ended
  | stop
deriving Repr, DecidableEq

def lookupOutcome : List (Nat × Bool) → Nat → Option Bool
  | [], _ => none
  | (i, ok) :: rest, id => if i = id then some ok else lookupOutcome rest id

/-- The head of the `while` loop of `processQueue`: if the `synthesisQueue`
is non-empty, `shift()` its head and suspend awaiting it; otherwise exit the
loop and run the `finally`, clearing `isProcessingQueue`. -/
def shiftOrExit (s : TTSState) : TTSState :=
  match s.synthQ with
  | [] => { s with isProcessing := false }
  | h :: t => { s with pending := s.pending ++ [h], synthQ := t }

/-- `playNext()` up to its suspension point: with an empty `audioQueue` it
reports not-playing; otherwise it shifts the head into `currentAudio` and
starts it (we log the id in `played`). -/
def playNextStep (s : TTSState) : TTSState :=
  match s.audioQ with
  | [] => { s with isPlaying := false, statusLog := s.statusLog ++ [false] }
  | h :: t => { s with current := some h, audioQ := t, played := s.played ++ [h] }

def ttsStepPlay (s : TTSState) : TTSState :=
  let s1 := { s with synthQ := s.synthQ ++ [s.nextId], nextId := s.nextId + 1 }
  if s1.isProcessing then s1
  else shiftOrExit { s1 with isProcessing := true }

def ttsStepResolve (s : TTSState) (id : Nat) (ok : Bool) : TTSState :=
  if id < s.nextId ∧ lookupOutcome s.resolved id = none then
    { s with resolved := (id, ok) :: s.resolved }
  else s

def ttsStepResume (s : TTSState) (id : Nat) : TTSState :=
  if id ∈ s.pending then
    match lookupOutcome s.resolved id with
    | some true =>
        let s1 := { s with pending := s.pending.erase id, audioQ := s.audioQ ++ [id] }
        let s2 :=
          if s1.isPlaying then s1
          else playNextStep { s1 with isPlaying := true, statusLog := s1.statusLog ++ [true] }
        shiftOrExit s2
    | some false => { s with pending := s.pending.erase id, isProcessing := false }
    | none => s
  else s

def ttsStepEnded (s : TTSState) : TTSState :=
  match s.current with
  | none => s
  | some _ => playNextStep { s with current := none }

def ttsStepStop (s : TTSState) : TTSState :=
  { s with current := none, synthQ := [], audioQ := [],
           isPlaying := false, isProcessing := false,
           statusLog := s.statusLog ++ [false] }

def ttsStep (s : TTSState) (e : TTSEvent) : TTSState :=
  match e with
  | .play => ttsStepPlay s
  | .resolve id ok => ttsStepResolve s id ok
  | .resume id => ttsStepResume s id
  | .ended => ttsStepEnded s
  | .stop => ttsStepStop s

def runTTS (evs : List TTSEvent) : TTSState :=
  evs.foldl ttsStep TTSState.init

/-- Events of a run in which nobody calls `stop()` and every synthesis
succeeds (the setting of the ordering claim). -/
def BenignEvent : TTSEvent → Prop
  | .stop => False
  | .resolve _ ok => ok = true
  | _ => True

instance : DecidablePred BenignEvent := fun e => by
  cases e <;> simp [BenignEvent] <;> infer_instance

/-- Invariant of benign runs: the ids recorded as played, the playback queue,
the awaited promises, and the synthesis queue, in that order, are exactly the
submission order `0, 1, …, nextId - 1`; at most one `processQueue` loop is
awaiting; an idle loop leaves both queues empty; idle playback has an empty
playback queue; and all recorded outcomes are successes. -/
def TTSInv (s : TTSState) : Prop :=
  (s.played ++ s.audioQ ++ s.pending ++ s.synthQ = List.range s.nextId) ∧
  s.pending.length ≤ 1 ∧
  (s.isProcessing = false → s.pending = [] ∧ s.synthQ = []) ∧
  (s.isPlaying = false → s.audioQ = []) ∧
  (∀ p ∈ s.resolved, p.2 = true)

/-! ### Enhanced realtime transport (`realtime-enhanced.ts`)

Reconnect state of `RealtimeAIServiceEnhanced`: `reconnectAttempts` (reset to
0 on open, incremented when the reconnect timer fires), a pending reconnect
timer, and the `isIntentionalClose` flag.  On `onclose`, unless intentionally
closed, while `reconnectAttempts < maxReconnectAttempts` (10) it schedules a
reconnect after `min(reconnectDelay * 2 ** reconnectAttempts, maxReconnectDelay)`
(base 1000 ms, max 30000 ms); once the attempts are exhausted it only prints
`console.error('Max reconnection attempts reached')` — the `onMessage`
callback registered by the caller is never invoked with any error.  `sock`
models whether a WebSocket object with live handlers exists; `timer` the
pending reconnect timeout and its delay; `fatalLogs` counts the max-attempts
console errors; `callbackErrors` counts error notifications delivered to the
caller's callback (the code contains no such call site on this path).
`scheduledDelays` logs every scheduled backoff delay. -/

structure WSState where
  reconnectAttempts : Nat
  timer : Option Nat
  intentional : Bool
  sock : Bool
  fatalLogs : Nat
  callbackErrors : Nat
  scheduledDelays : List Nat
deriving Repr, DecidableEq

/-- State right after `connect(onMessage)`: `isIntentionalClose = false` and
`createConnection()` has constructed the WebSocket. -/
def WSState.afterConnect : WSState :=
  { reconnectAttempts := 0, timer := none, intentional := false, sock := true,
    fatalLogs := 0, callbackErrors := 0, scheduledDelays := [] }

def wsBaseDelay : Nat := 1000
def wsMaxDelay : Nat := 30000
def wsMaxAttempts : Nat := 10

inductive WSEvent where
  | opened
  | closed
  | timerFire
  | disconnect
deriving Repr, DecidableEq

/-- `scheduleReconnect()`: clear any pending timer and set a new one with
exponentially backed-off delay. -/
def wsScheduleReconnect (s : WSState) : WSState :=
  let d := min (wsBaseDelay * 2 ^ s.reconnectAttempts) wsMaxDelay
  { s with timer := some d, scheduledDelays := s.scheduledDelays ++ [d] }

def wsStep (s : WSState) (e : WSEvent) : WSState :=
  match e with
  | .opened =>
      if s.sock then { s with reconnectAttempts := 0 } else s
  | .closed =>
      if s.sock then
        let s1 := { s with sock := false }
        if !s1.intentional ∧ s1.reconnectAttempts < wsMaxAttempts then
          wsScheduleReconnect s1
        else if wsMaxAttempts ≤ s1.reconnectAttempts then
          { s1 with fatalLogs := s1.fatalLogs + 1 }
        else s1
      else s
  | .timerFire =>
      match s.timer with
      | none => s
      | some _ =>
          { s with timer := none, reconnectAttempts := s.reconnectAttempts + 1,
                   sock := true }
  | .disconnect =>
      { s with intentional := true, timer := none, sock := false }

def runWS (evs : List WSEvent) : WSState :=
  evs.foldl wsStep WSState.afterConnect

/-- Invariant of the reconnect logic: no error is ever delivered through the
caller's message callback, a live socket has no pending reconnect timer, and
the max-attempts console error is printed at most once, after which the
service is permanently inert (no socket, no timer). -/
def WSInv (s : WSState) : Prop :=
  s.callbackErrors = 0 ∧
  (s.sock = true → s.timer = none) ∧
  (s.fatalLogs = 0 ∨ (s.fatalLogs = 1 ∧ s.sock = false ∧ s.timer = none))

/-- Ten consecutive failed connection attempts followed by one more unexpected
close: the run that exhausts the reconnect budget. -/
def wsExhaustionTrace : List WSEvent :=
  [.closed, .timerFire, .closed, .timerFire, .closed, .timerFire,
   .closed, .timerFire, .closed, .timerFire, .closed, .timerFire,
   .closed, .timerFire, .closed, .timerFire, .closed, .timerFire,
   .closed, .timerFire, .closed]

/-! ### Controller `sendMessage` (`conversation-controller.ts`)

`sendMessage(text)` returns immediately when `!text || text.trim().length === 0`;
otherwise it (1) calls `streamingHandler.addUserMessage(text)` — which itself
first calls `ttsService.stop()` and then appends the user message — then
(2) sends the text over the WebSocket, (3) resets the VAD, and (4) transitions
the state machine to `Thinking`.  We record that effect sequence as actions. -/

inductive CtrlAction where
  | ttsStop
  | appendUserMessage (text : String)
  | wsSendUserMessage (text : String)
  | vadReset
  | smStartThinking
deriving Repr, DecidableEq

def controllerSendMessage (text : String) : List CtrlAction :=
  if (jsTrim text).length = 0 then []
  else
    [CtrlAction.ttsStop, CtrlAction.appendUserMessage text,
     CtrlAction.wsSendUserMessage text, CtrlAction.vadReset,
     CtrlAction.smStartThinking]

/-! ## Theorems -/

/-- Joining a non-empty list of strings peels off the head. -/
theorem strJoin_cons (a : String) (l : List String) :
    String.join (a :: l) = a ++ String.join l := by
  simp only [String.join_eq, List.map_cons, List.flatten_cons]
  ext1
  simp

/-- Folding chunk events into an assembler state whose last message is still
streaming appends every chunk content to that message, in arrival order. -/
theorem handleChunks_extend_streaming (cs : List AIChunk) :
    ∀ (pre : List SMsg) (m : SMsg) (q : List String), m.streaming = true →
    ((cs.map InboundMsg.chunk).foldl handleMessage ⟨pre ++ [m], q⟩).messages =
      pre ++ [{ m with content := m.content ++ String.join (cs.map AIChunk.content) }] := by
  induction cs with
  | nil =>
    intro pre m q hm
    simp [String.join]
  | cons c rest ih =>
    intro pre m q hm
    simp only [List.map_cons, List.foldl_cons]
    have hstep : handleMessage ⟨pre ++ [m], q⟩ (InboundMsg.chunk c) =
        ⟨pre ++ [{ m with content := m.content ++ c.content }],
         if 0 < (jsTrim c.content).length then q ++ [c.content] else q⟩ := by
      simp [handleMessage, handleChunk, List.getLast?_concat, hm, List.dropLast_concat]
    rw [hstep, ih pre { m with content := m.content ++ c.content } _ hm]
    simp [strJoin_cons, String.append_assoc]

/-- Claim C6: `ConversationStateMachine.interrupt()` is a no-op (no state
change, no listener notification, no scheduled timer) unless the current state
is `Speaking`; called in `Speaking` and followed by the delayed timer callback
with no intervening operation, exactly two transitions occur, in order
`Interrupted` then `Listening`. -/
theorem csm_interrupt_two_transitions (s : CSMState) :
    (s.current ≠ ConvState.speaking → csmStep s CSMEvent.interruptOp = s) ∧
    (s.current = ConvState.speaking →
      (csmStep (csmStep s CSMEvent.interruptOp) CSMEvent.timerFire).notifLog =
        s.notifLog ++ [(ConvState.interrupted, ConvState.speaking),
                       (ConvState.listening, ConvState.interrupted)] ∧
      (csmStep (csmStep s CSMEvent.interruptOp) CSMEvent.timerFire).current =
        ConvState.listening) := by
  constructor
  · intro h
    simp [csmStep, h]
  · intro h
    simp [csmStep, csmTransition, h]

theorem csm_interrupt_two_transitions_witness :
    ((CSMState.init.current ≠ ConvState.speaking →
        csmStep CSMState.init CSMEvent.interruptOp = CSMState.init) ∧
     ((runCSM [CSMEvent.startSpeaking]).current = ConvState.speaking →
        (csmStep (csmStep (runCSM [CSMEvent.startSpeaking]) CSMEvent.interruptOp)
            CSMEvent.timerFire).notifLog =
          (runCSM [CSMEvent.startSpeaking]).notifLog ++
            [(ConvState.interrupted, ConvState.speaking),
             (ConvState.listening, ConvState.interrupted)] ∧
        (csmStep (csmStep (runCSM [CSMEvent.startSpeaking]) CSMEvent.interruptOp)
            CSMEvent.timerFire).current = ConvState.listening)) :=
  ⟨(csm_interrupt_two_transitions CSMState.init).1,
   (csm_interrupt_two_transitions (runCSM [CSMEvent.startSpeaking])).2⟩

/-- Claim C7, counterexample: in the reachable trace where `stop()` runs during
the post-interrupt delay, the transition into `Interrupted` is immediately
followed by a transition into `Idle`, not `Listening`. -/
theorem csm_interrupted_then_idle_counterexample :
    (runCSM [CSMEvent.startSpeaking, CSMEvent.interruptOp, CSMEvent.stopOp,
             CSMEvent.timerFire]).notifLog =
      [(ConvState.speaking, ConvState.idle),
       (ConvState.interrupted, ConvState.speaking),
       (ConvState.idle, ConvState.interrupted),
       (ConvState.listening, ConvState.idle)] ∧
    ¬ InterruptedThenListening
        (runCSM [CSMEvent.startSpeaking, CSMEvent.interruptOp, CSMEvent.stopOp,
                 CSMEvent.timerFire]).notifLog := by
  constructor
  · decide
  · decide

/-- Claim C7, amended: from `Speaking`, if the timer scheduled by `interrupt()`
fires with no intervening operation, the transition into `Interrupted` is
immediately followed by one into `Listening`; if `stop()` intervenes during the
delay, `Interrupted` is instead immediately followed by `Idle`, and the still
pending timer later moves the machine from `Idle` to `Listening`. -/
theorem csm_interrupted_followed_by_listening (s : CSMState)
    (h : s.current = ConvState.speaking) :
    (csmStep (csmStep s CSMEvent.interruptOp) CSMEvent.timerFire).notifLog =
      s.notifLog ++ [(ConvState.interrupted, ConvState.speaking),
                     (ConvState.listening, ConvState.interrupted)] ∧
    (csmStep (csmStep (csmStep s CSMEvent.interruptOp) CSMEvent.stopOp)
        CSMEvent.timerFire).notifLog =
      s.notifLog ++ [(ConvState.interrupted, ConvState.speaking),
                     (ConvState.idle, ConvState.interrupted),
                     (ConvState.listening, ConvState.idle)] := by
  simp [csmStep, csmTransition, h]

theorem csm_interrupted_followed_by_listening_witness :
    (runCSM [CSMEvent.startSpeaking]).current = ConvState.speaking ∧
    (csmStep (csmStep (runCSM [CSMEvent.startSpeaking]) CSMEvent.interruptOp)
        CSMEvent.timerFire).notifLog =
      (runCSM [CSMEvent.startSpeaking]).notifLog ++
        [(ConvState.interrupted, ConvState.speaking),
         (ConvState.listening, ConvState.interrupted)] :=
  ⟨by decide, (csm_interrupted_followed_by_listening _ (by decide)).1⟩

/-- Claim C3: with the detector enabled and the AI-speaking flag set, a single
`onUserSpeechStart()` emits exactly the call sequence TTS-stop followed by the
interrupt callback (so `stop()` runs before the callback returns), clears the
AI-speaking flag, and a second `onUserSpeechStart()` without a new
`setAISpeaking(true)` emits nothing. -/
theorem bargein_fires_once (s : BargeInState) (hen : s.enabled = true)
    (hsp : s.isAISpeaking = true) (htts : s.hasTTS = true)
    (hcb : s.hasCallback = true) :
    (onUserSpeechStart s).2 = [BargeAction.ttsStop, BargeAction.interruptCb] ∧
    (onUserSpeechStart s).1.isAISpeaking = false ∧
    (onUserSpeechStart (onUserSpeechStart s).1).2 = [] := by
  simp [onUserSpeechStart, bargeInterrupt, hen, hsp, htts, hcb]

theorem bargein_fires_once_witness :
    (onUserSpeechStart ⟨true, true, true, true⟩).2 =
      [BargeAction.ttsStop, BargeAction.interruptCb] ∧
    (onUserSpeechStart ⟨true, true, true, true⟩).1.isAISpeaking = false ∧
    (onUserSpeechStart (onUserSpeechStart ⟨true, true, true, true⟩).1).2 = [] :=
  bargein_fires_once ⟨true, true, true, true⟩ rfl rfl rfl rfl

/-- Claim C8: feeding the VAD the final fragments "hel" then "lo" within the
silence window and then letting the silence timer elapse triggers the
auto-send callback exactly once with "hello", clearing the buffer; a further
timer elapse sends nothing. -/
theorem vad_hello_sent_once :
    (vadTimerElapse (vadOnSpeech (vadOnSpeech VADState.mkDefault "hel" true)
        "lo" true)).2 = some "hello" ∧
    (vadTimerElapse (vadOnSpeech (vadOnSpeech VADState.mkDefault "hel" true)
        "lo" true)).1.accumulated = "" ∧
    (vadTimerElapse (vadTimerElapse (vadOnSpeech (vadOnSpeech VADState.mkDefault
        "hel" true) "lo" true)).1).2 = none := by
  refine ⟨?_, ?_, ?_⟩ <;> decide

/-- Claim C2: the code violates the claim.  In the run where one fragment is
submitted, `stop()` is called while its synthesis is still in flight, and the
synthesis then resolves, the suspended `processQueue` loop resumes with the
already-shifted promise, promotes it, and starts playback: the item plays and
`isSpeaking()` reports true after the stop. -/
theorem tts_stop_leaks_inflight_synthesis :
    (runTTS [TTSEvent.play, TTSEvent.stop, TTSEvent.resolve 0 true,
             TTSEvent.resume 0]).played = [0] ∧
    (runTTS [TTSEvent.play, TTSEvent.stop, TTSEvent.resolve 0 true,
             TTSEvent.resume 0]).isPlaying = true ∧
    (runTTS [TTSEvent.play, TTSEvent.stop, TTSEvent.resolve 0 true,
             TTSEvent.resume 0]).statusLog = [false, true] := by
  refine ⟨?_, ?_, ?_⟩ <;> decide

/-- Claim C9: the code violates the claim for synthesis failures.  With three
fragments submitted and the second synthesis rejecting, the `processQueue`
loop aborts through its `finally` (there is no `catch`), leaving the third
fragment stranded in the synthesis queue: it is never promoted or played even
though its own synthesis succeeded and playback is idle. -/
theorem tts_synthesis_failure_stalls_queue :
    (runTTS [TTSEvent.play, TTSEvent.play, TTSEvent.play,
             TTSEvent.resolve 0 true, TTSEvent.resume 0,
             TTSEvent.resolve 1 false, TTSEvent.resume 1,
             TTSEvent.resolve 2 true, TTSEvent.resume 2,
             TTSEvent.ended, TTSEvent.ended]).played = [0] ∧
    (runTTS [TTSEvent.play, TTSEvent.play, TTSEvent.play,
             TTSEvent.resolve 0 true, TTSEvent.resume 0,
             TTSEvent.resolve 1 false, TTSEvent.resume 1,
             TTSEvent.resolve 2 true, TTSEvent.resume 2,
             TTSEvent.ended, TTSEvent.ended]).synthQ = [2] ∧
    (runTTS [TTSEvent.play, TTSEvent.play, TTSEvent.play,
             TTSEvent.resolve 0 true, TTSEvent.resume 0,
             TTSEvent.resolve 1 false, TTSEvent.resume 1,
             TTSEvent.resolve 2 true, TTSEvent.resume 2,
             TTSEvent.ended, TTSEvent.ended]).isProcessing = false ∧
    (runTTS [TTSEvent.play, TTSEvent.play, TTSEvent.play,
             TTSEvent.resolve 0 true, TTSEvent.resume 0,
             TTSEvent.resolve 1 false, TTSEvent.resume 1,
             TTSEvent.resolve 2 true, TTSEvent.resume 2,
             TTSEvent.ended, TTSEvent.ended]).pending = [] := by
  refine ⟨?_, ?_, ?_, ?_⟩ <;> decide

/-- Claim C10: `sendMessage(text)` with an empty or whitespace-only argument
performs none of its effects: no user message append, no TTS stop, no
transport send, no VAD reset, no state transition. -/
theorem sendMessage_blank_is_noop (t : String) (h : ∀ c ∈ t.data, isJsSpace c) :
    controllerSendMessage t = [] := by
  have hd : t.data.dropWhile isJsSpace = [] := by
    rw [List.dropWhile_eq_nil_iff]
    exact fun x hx => h x hx
  unfold controllerSendMessage jsTrim
  rw [hd]
  simp [String.length]

theorem sendMessage_blank_is_noop_witness :
    controllerSendMessage "  \t " = [] :=
  sendMessage_blank_is_noop "  \t " (by decide)

/-- A successful lookup in the outcome table comes from a recorded entry. -/
theorem lookupOutcome_mem :
    ∀ (r : List (Nat × Bool)) (id : Nat) (b : Bool),
      lookupOutcome r id = some b → (id, b) ∈ r := by
  intro r
  induction r with
  | nil => intro id b h; simp [lookupOutcome] at h
  | cons p rest ih =>
    rcases p with ⟨i, bb⟩
    intro id b h
    by_cases hp : i = id
    · subst hp
      simp [lookupOutcome] at h
      simp [h]
    · simp [lookupOutcome, hp] at h
      simp [ih id b h]

/-- A singleton fact: a list of length at most one containing an element is
that singleton. -/
theorem mem_len_le_one (l : List Nat) (x : Nat) (hx : x ∈ l)
    (hl : l.length ≤ 1) : l = [x] := by
  match l, hx with
  | [y], hx =>
    simp at hx
    subst hx
    rfl
  | y :: z :: rest, _ => simp at hl

/-- Preservation: every benign event preserves the TTS invariant. -/
theorem ttsInv_step (s : TTSState) (e : TTSEvent) (hinv : TTSInv s)
    (hb : BenignEvent e) : TTSInv (ttsStep s e) := by
  obtain ⟨h1, h2, h3, h4, h5⟩ := hinv
  cases e with
  | play =>
    by_cases hp : s.isProcessing = true
    · have hstep : ttsStep s TTSEvent.play =
          { s with synthQ := s.synthQ ++ [s.nextId], nextId := s.nextId + 1 } := by
        simp [ttsStep, ttsStepPlay, hp]
      rw [hstep]
      refine ⟨?_, h2, ?_, h4, h5⟩
      · show s.played ++ s.audioQ ++ s.pending ++ (s.synthQ ++ [s.nextId]) =
          List.range (s.nextId + 1)
        rw [List.range_succ, ← h1]
        simp [List.append_assoc]
      · intro hfalse
        exact absurd (show s.isProcessing = false from hfalse) (by simp [hp])
    · have hp' : s.isProcessing = false := by simpa using hp
      obtain ⟨hpe, hsy⟩ := h3 hp'
      have hstep : ttsStep s TTSEvent.play =
          { s with synthQ := [], pending := s.pending ++ [s.nextId],
                   nextId := s.nextId + 1, isProcessing := true } := by
        simp [ttsStep, ttsStepPlay, hp', shiftOrExit, hsy]
      rw [hstep]
      refine ⟨?_, ?_, ?_, h4, h5⟩
      · show s.played ++ s.audioQ ++ (s.pending ++ [s.nextId]) ++ [] =
          List.range (s.nextId + 1)
        rw [List.range_succ, ← h1, hpe, hsy]
        simp
      · show (s.pending ++ [s.nextId]).length ≤ 1
        simp [hpe]
      · intro hfalse
        cases hfalse
  | resolve id ok =>
    have hok : ok = true := hb
    subst hok
    simp only [ttsStep, ttsStepResolve]
    split
    · refine ⟨h1, h2, h3, h4, ?_⟩
      intro p hpmem
      rcases List.mem_cons.mp hpmem with hpeq | hptail
      · simp [hpeq]
      · exact h5 p hptail
    · exact ⟨h1, h2, h3, h4, h5⟩
  | resume id =>
    by_cases hmem : id ∈ s.pending
    case neg =>
      have hstep : ttsStep s (TTSEvent.resume id) = s := by
        simp [ttsStep, ttsStepResume, hmem]
      rw [hstep]
      exact ⟨h1, h2, h3, h4, h5⟩
    case pos =>
    have hpe : s.pending = [id] := mem_len_le_one s.pending id hmem h2
    have hproc : s.isProcessing = true := by
      cases hpr : s.isProcessing
      · exact absurd hmem (by simp [(h3 hpr).1])
      · rfl
    cases hlook : lookupOutcome s.resolved id with
    | none =>
      have hstep : ttsStep s (TTSEvent.resume id) = s := by
        simp [ttsStep, ttsStepResume, hmem, hlook]
      rw [hstep]
      exact ⟨h1, h2, h3, h4, h5⟩
    | some b =>
      have hbtrue : b = true := h5 _ (lookupOutcome_mem s.resolved id b hlook)
      subst hbtrue
      have herase : s.pending.erase id = [] := by simp [hpe]
      by_cases hpl : s.isPlaying = true
      · cases hsy : s.synthQ with
        | nil =>
          have hstep : ttsStep s (TTSEvent.resume id) =
              { s with pending := [], audioQ := s.audioQ ++ [id],
                       isProcessing := false } := by
            simp [ttsStep, ttsStepResume, hmem, hlook, hpl, herase,
              shiftOrExit, hsy]
          rw [hstep]
          refine ⟨?_, by simp, by simp [hsy], ?_, h5⟩
          · show s.played ++ (s.audioQ ++ [id]) ++ [] ++ s.synthQ =
              List.range s.nextId
            rw [← h1, hpe, hsy]
            simp [List.append_assoc]
          · intro hfalse
            exact absurd (show s.isPlaying = false from hfalse) (by simp [hpl])
        | cons hh tt =>
          have hstep : ttsStep s (TTSEvent.resume id) =
              { s with pending := [hh], audioQ := s.audioQ ++ [id],
                       synthQ := tt } := by
            simp [ttsStep, ttsStepResume, hmem, hlook, hpl, herase,
              shiftOrExit, hsy]
          rw [hstep]
          refine ⟨?_, by simp, ?_, ?_, h5⟩
          · show s.played ++ (s.audioQ ++ [id]) ++ [hh] ++ tt = List.range s.nextId
            rw [← h1, hpe, hsy]
            simp [List.append_assoc]
          · intro hfalse
            exact absurd (show s.isProcessing = false from hfalse)
              (by simp [hproc])
          · intro hfalse
            exact absurd (show s.isPlaying = false from hfalse) (by simp [hpl])
      · have hpl' : s.isPlaying = false := by simpa using hpl
        have haq : s.audioQ = [] := h4 hpl'
        cases hsy : s.synthQ with
        | nil =>
          have hstep : ttsStep s (TTSEvent.resume id) =
              { s with pending := [], audioQ := [], current := some id,
                       isPlaying := true, played := s.played ++ [id],
                       statusLog := s.statusLog ++ [true],
                       isProcessing := false } := by
            simp [ttsStep, ttsStepResume, hmem, hlook, hpl', herase,
              playNextStep, shiftOrExit, hsy, haq]
          rw [hstep]
          refine ⟨?_, by simp, by simp [hsy], ?_, h5⟩
          · show (s.played ++ [id]) ++ [] ++ [] ++ s.synthQ = List.range s.nextId
            rw [← h1, hpe, hsy, haq]
            simp
          · intro hfalse
            cases hfalse
        | cons hh tt =>
          have hstep : ttsStep s (TTSEvent.resume id) =
              { s with pending := [hh], audioQ := [], current := some id,
                       isPlaying := true, played := s.played ++ [id],
                       statusLog := s.statusLog ++ [true],
                       synthQ := tt } := by
            simp [ttsStep, ttsStepResume, hmem, hlook, hpl', herase,
              playNextStep, shiftOrExit, hsy, haq]
          rw [hstep]
          refine ⟨?_, by simp, ?_, ?_, h5⟩
          · show (s.played ++ [id]) ++ [] ++ [hh] ++ tt = List.range s.nextId
            rw [← h1, hpe, hsy, haq]
            simp [List.append_assoc]
          · intro hfalse
            exact absurd (show s.isProcessing = false from hfalse)
              (by simp [hproc])
          · intro hfalse
            cases hfalse
  | ended =>
    cases hc : s.current with
    | none =>
      have hstep : ttsStep s TTSEvent.ended = s := by
        simp [ttsStep, ttsStepEnded, hc]
      rw [hstep]
      exact ⟨h1, h2, h3, h4, h5⟩
    | some c =>
      cases haq : s.audioQ with
      | nil =>
        have hstep : ttsStep s TTSEvent.ended =
            { s with current := none, isPlaying := false,
                     statusLog := s.statusLog ++ [false] } := by
          simp [ttsStep, ttsStepEnded, hc, playNextStep, haq]
        rw [hstep]
        refine ⟨h1, h2, h3, ?_, h5⟩
        intro _
        show s.audioQ = []
        exact haq
      | cons hh tt =>
        have hstep : ttsStep s TTSEvent.ended =
            { s with current := some hh, audioQ := tt,
                     played := s.played ++ [hh] } := by
          simp [ttsStep, ttsStepEnded, hc, playNextStep, haq]
        rw [hstep]
        refine ⟨?_, h2, h3, ?_, h5⟩
        · show (s.played ++ [hh]) ++ tt ++ s.pending ++ s.synthQ =
            List.range s.nextId
          rw [← h1, haq]
          simp [List.append_assoc]
        · intro hfalse
          have := h4 (show s.isPlaying = false from hfalse)
          rw [haq] at this
          cases this
  | stop => exact absurd hb (by simp [BenignEvent])

/-- The initial TTS state satisfies the invariant. -/
theorem ttsInv_init : TTSInv TTSState.init := by
  refine ⟨?_, ?_, ?_, ?_, ?_⟩ <;> simp [TTSState.init, TTSInv]

/-- The invariant holds after any benign run. -/
theorem ttsInv_run (evs : List TTSEvent) (h : ∀ e ∈ evs, BenignEvent e) :
    TTSInv (runTTS evs) := by
  have main : ∀ (l : List TTSEvent) (s : TTSState), TTSInv s →
      (∀ e ∈ l, BenignEvent e) → TTSInv (l.foldl ttsStep s) := by
    intro l
    induction l with
    | nil => intro s hs _; exact hs
    | cons e rest ih =>
      intro s hs hl
      exact ih (ttsStep s e) (ttsInv_step s e hs (hl e (by simp)))
        (fun x hx => hl x (by simp [hx]))
  exact main evs TTSState.init ttsInv_init h

/-- Claim C1: in any run of the TTS service in which nobody calls `stop()` and
every synthesis succeeds — syntheses may settle in any order — the items
promoted to the playback queue together with the items already played are
exactly the first submissions, in submission order: playback order equals
submission order regardless of synthesis completion order. -/
theorem tts_plays_in_submission_order (evs : List TTSEvent)
    (h : ∀ e ∈ evs, BenignEvent e) :
    (runTTS evs).played ++ (runTTS evs).audioQ =
      List.range ((runTTS evs).played ++ (runTTS evs).audioQ).length := by
  obtain ⟨h1, -, -, -, -⟩ := ttsInv_run evs h
  have hsplit : ((runTTS evs).played ++ (runTTS evs).audioQ) ++
      ((runTTS evs).pending ++ (runTTS evs).synthQ) =
      List.range (runTTS evs).nextId := by
    rw [← h1]
    simp [List.append_assoc]
  have htake : (List.range (runTTS evs).nextId).take
      ((runTTS evs).played ++ (runTTS evs).audioQ).length =
      (runTTS evs).played ++ (runTTS evs).audioQ := by
    rw [← hsplit, List.take_left]
  have hle : ((runTTS evs).played ++ (runTTS evs).audioQ).length ≤
      (runTTS evs).nextId := by
    have hlen := congrArg List.length hsplit
    simp only [List.length_append, List.length_range] at hlen
    simp only [List.length_append]
    omega
  calc (runTTS evs).played ++ (runTTS evs).audioQ
      = (List.range (runTTS evs).nextId).take
          ((runTTS evs).played ++ (runTTS evs).audioQ).length := htake.symm
    _ = List.range (min ((runTTS evs).played ++ (runTTS evs).audioQ).length
          (runTTS evs).nextId) := List.take_range _ _
    _ = List.range ((runTTS evs).played ++ (runTTS evs).audioQ).length := by
          rw [min_eq_left hle]

theorem tts_plays_in_submission_order_witness :
    (∀ e ∈ ([TTSEvent.play, TTSEvent.play, TTSEvent.resolve 1 true,
             TTSEvent.resolve 0 true, TTSEvent.resume 0, TTSEvent.resume 1,
             TTSEvent.ended, TTSEvent.ended] : List TTSEvent), BenignEvent e) ∧
    (runTTS [TTSEvent.play, TTSEvent.play, TTSEvent.resolve 1 true,
             TTSEvent.resolve 0 true, TTSEvent.resume 0, TTSEvent.resume 1,
             TTSEvent.ended, TTSEvent.ended]).played ++
      (runTTS [TTSEvent.play, TTSEvent.play, TTSEvent.resolve 1 true,
               TTSEvent.resolve 0 true, TTSEvent.resume 0, TTSEvent.resume 1,
               TTSEvent.ended, TTSEvent.ended]).audioQ =
      List.range ((runTTS [TTSEvent.play, TTSEvent.play, TTSEvent.resolve 1 true,
               TTSEvent.resolve 0 true, TTSEvent.resume 0, TTSEvent.resume 1,
               TTSEvent.ended, TTSEvent.ended]).played ++
        (runTTS [TTSEvent.play, TTSEvent.play, TTSEvent.resolve 1 true,
               TTSEvent.resolve 0 true, TTSEvent.resume 0, TTSEvent.resume 1,
               TTSEvent.ended, TTSEvent.ended]).audioQ).length :=
  ⟨by decide, tts_plays_in_submission_order _ (by decide)⟩

/-- Claim C4: chunk events of one logical assistant turn assemble by
concatenation in arrival order.  (1) Starting a turn — the last message, if
any, is not streaming — a non-empty chunk sequence appends exactly one
streaming assistant message whose content is the concatenation of all chunk
contents.  (2) While the last message is a still-streaming assistant message,
further chunks extend its content by their concatenation in arrival order. -/
theorem chunks_concatenate_in_order :
    (∀ (s : AssemblerState) (c0 : AIChunk) (cs : List AIChunk),
      (∀ m, s.messages.getLast? = some m → m.streaming = false) →
      (((c0 :: cs).map InboundMsg.chunk).foldl handleMessage s).messages =
        s.messages ++
          [{ role := .assistant,
             content := String.join ((c0 :: cs).map AIChunk.content),
             timestamp := c0.timestamp, streaming := true, trigger := none }]) ∧
    (∀ (pre : List SMsg) (m : SMsg) (q : List String) (cs : List AIChunk),
      m.streaming = true → m.role = .assistant →
      ((cs.map InboundMsg.chunk).foldl handleMessage ⟨pre ++ [m], q⟩).messages =
        pre ++ [{ m with
          content := m.content ++ String.join (cs.map AIChunk.content) }]) := by
  constructor
  · intro s c0 cs h
    obtain ⟨q1, hq1⟩ : ∃ q1, handleMessage s (InboundMsg.chunk c0) =
        AssemblerState.mk (s.messages ++
          [SMsg.mk MsgRole.assistant c0.content c0.timestamp true none]) q1 := by
      cases hl : s.messages.getLast? with
      | none =>
        refine ⟨if 0 < (jsTrim c0.content).length then s.ttsQueue ++ [c0.content]
          else s.ttsQueue, ?_⟩
        simp only [handleMessage, handleChunk, hl]
      | some m =>
        have hm := h m hl
        refine ⟨if 0 < (jsTrim c0.content).length then s.ttsQueue ++ [c0.content]
          else s.ttsQueue, ?_⟩
        simp only [handleMessage, handleChunk, hl, hm, Bool.false_eq_true,
          if_false]
    simp only [List.map_cons, List.foldl_cons, hq1]
    rw [handleChunks_extend_streaming cs s.messages _ q1 rfl]
    simp [strJoin_cons]
  · intro pre m q cs hm _
    exact handleChunks_extend_streaming cs pre m q hm

theorem chunks_concatenate_in_order_witness :
    ((∀ m, (⟨[], []⟩ : AssemblerState).messages.getLast? = some m →
        m.streaming = false) ∧
      ((([⟨"Hel", 0, 7⟩, ⟨"lo", 1, 8⟩] : List AIChunk).map
          InboundMsg.chunk).foldl handleMessage ⟨[], []⟩).messages =
        ([] : List SMsg) ++
          [{ role := .assistant,
             content := String.join
               (([⟨"Hel", 0, 7⟩, ⟨"lo", 1, 8⟩] : List AIChunk).map
                 AIChunk.content),
             timestamp := 7, streaming := true, trigger := none }]) ∧
    ((⟨MsgRole.assistant, "Hel", 7, true, none⟩ : SMsg).streaming = true ∧
      ((([⟨"lo", 1, 8⟩] : List AIChunk).map InboundMsg.chunk).foldl
          handleMessage ⟨[] ++ [⟨MsgRole.assistant, "Hel", 7, true, none⟩], []⟩).messages =
        ([] : List SMsg) ++
          [{ (⟨MsgRole.assistant, "Hel", 7, true, none⟩ : SMsg) with
             content := "Hel" ++ String.join
               (([⟨"lo", 1, 8⟩] : List AIChunk).map AIChunk.content) }]) := by
  refine ⟨⟨?_, ?_⟩, ?_, ?_⟩
  · intro m hm
    simp at hm
  · exact chunks_concatenate_in_order.1 ⟨[], []⟩ ⟨"Hel", 0, 7⟩ [⟨"lo", 1, 8⟩]
      (by intro m hm; simp at hm)
  · rfl
  · exact chunks_concatenate_in_order.2 [] ⟨MsgRole.assistant, "Hel", 7, true, none⟩
      [] [⟨"lo", 1, 8⟩] rfl rfl

/-- Preservation: every transport event preserves the reconnect invariant. -/
theorem wsInv_step (s : WSState) (e : WSEvent) (hinv : WSInv s) :
    WSInv (wsStep s e) := by
  obtain ⟨hcb, hst, hfl⟩ := hinv
  cases e with
  | opened =>
    by_cases hs : s.sock = true
    · have hstep : wsStep s WSEvent.opened = { s with reconnectAttempts := 0 } := by
        simp [wsStep, hs]
      rw [hstep]
      exact ⟨hcb, fun h => hst h, hfl⟩
    · have hstep : wsStep s WSEvent.opened = s := by
        simp [wsStep] at hs ⊢
        simp [hs]
      rw [hstep]
      exact ⟨hcb, hst, hfl⟩
  | closed =>
    by_cases hs : s.sock = true
    · by_cases hattempt : (!s.intentional ∧ s.reconnectAttempts < wsMaxAttempts)
      · have hstep : wsStep s WSEvent.closed =
            { s with sock := false,
                     timer := some (min (wsBaseDelay * 2 ^ s.reconnectAttempts)
                       wsMaxDelay),
                     scheduledDelays := s.scheduledDelays ++
                       [min (wsBaseDelay * 2 ^ s.reconnectAttempts) wsMaxDelay] } := by
          simp only [wsStep, hs, if_true, wsScheduleReconnect]
          rw [if_pos hattempt]
        rw [hstep]
        refine ⟨hcb, ?_, ?_⟩
        · intro h
          cases h
        · rcases hfl with hfl | hfl
          · exact Or.inl hfl
          · exact absurd hs (by simp [hfl.2.1])
      · by_cases hmax : wsMaxAttempts ≤ s.reconnectAttempts
        · have hstep : wsStep s WSEvent.closed =
              { s with sock := false, fatalLogs := s.fatalLogs + 1 } := by
            simp only [wsStep, hs, if_true]
            rw [if_neg hattempt, if_pos hmax]
          rw [hstep]
          refine ⟨hcb, ?_, ?_⟩
          · intro h
            cases h
          · rcases hfl with hfl | hfl
            · exact Or.inr ⟨by simp [hfl], rfl, hst hs⟩
            · exact absurd hs (by simp [hfl.2.1])
        · have hstep : wsStep s WSEvent.closed = { s with sock := false } := by
            simp only [wsStep, hs, if_true]
            rw [if_neg hattempt, if_neg hmax]
          rw [hstep]
          refine ⟨hcb, ?_, ?_⟩
          · intro h
            cases h
          · rcases hfl with hfl | hfl
            · exact Or.inl hfl
            · exact absurd hs (by simp [hfl.2.1])
    · have hstep : wsStep s WSEvent.closed = s := by
        simp [wsStep] at hs ⊢
        simp [hs]
      rw [hstep]
      exact ⟨hcb, hst, hfl⟩
  | timerFire =>
    cases ht : s.timer with
    | none =>
      have hstep : wsStep s WSEvent.timerFire = s := by
        simp [wsStep, ht]
      rw [hstep]
      exact ⟨hcb, hst, hfl⟩
    | some d =>
      have hstep : wsStep s WSEvent.timerFire =
          { s with timer := none, reconnectAttempts := s.reconnectAttempts + 1,
                   sock := true } := by
        simp [wsStep, ht]
      rw [hstep]
      refine ⟨hcb, ?_, ?_⟩
      · intro _
        rfl
      · rcases hfl with hfl | hfl
        · exact Or.inl hfl
        · exact absurd ht (by simp [hfl.2.2])
  | disconnect =>
    have hstep : wsStep s WSEvent.disconnect =
        { s with intentional := true, timer := none, sock := false } := by
      simp [wsStep]
    rw [hstep]
    refine ⟨hcb, ?_, ?_⟩
    · intro h
      cases h
    · rcases hfl with hfl | hfl
      · exact Or.inl hfl
      · exact Or.inr ⟨hfl.1, rfl, rfl⟩

/-- The invariant holds right after `connect()`. -/
theorem wsInv_afterConnect : WSInv WSState.afterConnect := by
  refine ⟨rfl, fun _ => rfl, Or.inl rfl⟩

/-- The invariant holds after any run of the transport. -/
theorem wsInv_run (evs : List WSEvent) : WSInv (runWS evs) := by
  have main : ∀ (l : List WSEvent) (s : WSState), WSInv s →
      WSInv (l.foldl wsStep s) := by
    intro l
    induction l with
    | nil => intro s hs; exact hs
    | cons e rest ih => intro s hs; exact ih (wsStep s e) (wsInv_step s e hs)
  exact main evs WSState.afterConnect wsInv_afterConnect

/-- Claim C5, counterexample: a run with ten failed reconnect attempts and one
further unexpected close schedules exactly the backoff delays
min(1000·2^k, 30000), logs the max-attempts console error once, schedules no
further reconnect — but the caller's callback receives nothing: no fatal
connectivity error is ever surfaced to the caller. -/
theorem ws_fatal_error_not_surfaced_to_caller :
    (runWS wsExhaustionTrace).scheduledDelays =
      [1000, 2000, 4000, 8000, 16000, 30000, 30000, 30000, 30000, 30000] ∧
    (runWS wsExhaustionTrace).fatalLogs = 1 ∧
    (runWS wsExhaustionTrace).timer = none ∧
    ¬ ((runWS wsExhaustionTrace).callbackErrors = 1) := by
  refine ⟨?_, ?_, ?_, ?_⟩ <;> decide

/-- Claim C5, amended: (1) an unexpected close with attempt counter k < 10
schedules a reconnect with delay exactly min(1000·2^k, 30000) ms; (2) an
unexpected close with the attempt budget exhausted schedules nothing and
increments the fatal console-error count by one; (3) in every run, the fatal
console error is logged at most once and no error is ever delivered through
the caller's message callback. -/
theorem ws_backoff_formula_and_single_fatal_log :
    (∀ s : WSState, s.sock = true → s.intentional = false →
      s.reconnectAttempts < wsMaxAttempts →
      (wsStep s WSEvent.closed).timer =
        some (min (wsBaseDelay * 2 ^ s.reconnectAttempts) wsMaxDelay) ∧
      (wsStep s WSEvent.closed).scheduledDelays =
        s.scheduledDelays ++
          [min (wsBaseDelay * 2 ^ s.reconnectAttempts) wsMaxDelay]) ∧
    (∀ s : WSState, s.sock = true → wsMaxAttempts ≤ s.reconnectAttempts →
      (wsStep s WSEvent.closed).timer = s.timer ∧
      (wsStep s WSEvent.closed).scheduledDelays = s.scheduledDelays ∧
      (wsStep s WSEvent.closed).fatalLogs = s.fatalLogs + 1) ∧
    (∀ evs : List WSEvent,
      (runWS evs).fatalLogs ≤ 1 ∧ (runWS evs).callbackErrors = 0) := by
  refine ⟨?_, ?_, ?_⟩
  · intro s hs hi hk
    have hcond : (!s.intentional ∧ s.reconnectAttempts < wsMaxAttempts) := by
      simp [hi, hk]
    have hstep : wsStep s WSEvent.closed =
        { s with sock := false,
                 timer := some (min (wsBaseDelay * 2 ^ s.reconnectAttempts)
                   wsMaxDelay),
                 scheduledDelays := s.scheduledDelays ++
                   [min (wsBaseDelay * 2 ^ s.reconnectAttempts) wsMaxDelay] } := by
      simp only [wsStep, hs, if_true, wsScheduleReconnect]
      rw [if_pos hcond]
    rw [hstep]
    exact ⟨rfl, rfl⟩
  · intro s hs hk
    have hcond : ¬ (!s.intentional ∧ s.reconnectAttempts < wsMaxAttempts) := by
      intro hc
      exact absurd hc.2 (by omega)
    have hstep : wsStep s WSEvent.closed =
        { s with sock := false, fatalLogs := s.fatalLogs + 1 } := by
      simp only [wsStep, hs, if_true]
      rw [if_neg hcond, if_pos hk]
    rw [hstep]
    exact ⟨rfl, rfl, rfl⟩
  · intro evs
    obtain ⟨hcb, -, hfl⟩ := wsInv_run evs
    refine ⟨?_, hcb⟩
    rcases hfl with hfl | hfl
    · simp [hfl]
    · simp [hfl.1]

theorem ws_backoff_formula_and_single_fatal_log_witness :
    (WSState.afterConnect.sock = true ∧
      WSState.afterConnect.intentional = false ∧
      WSState.afterConnect.reconnectAttempts < wsMaxAttempts ∧
      (wsStep WSState.afterConnect WSEvent.closed).timer = some 1000) ∧
    ((runWS (List.take 20 wsExhaustionTrace)).sock = true ∧
      wsMaxAttempts ≤ (runWS (List.take 20 wsExhaustionTrace)).reconnectAttempts ∧
      (wsStep (runWS (List.take 20 wsExhaustionTrace)) WSEvent.closed).fatalLogs =
        (runWS (List.take 20 wsExhaustionTrace)).fatalLogs + 1) ∧
    ((runWS wsExhaustionTrace).fatalLogs ≤ 1 ∧
      (runWS wsExhaustionTrace).callbackErrors = 0) := by
  refine ⟨⟨rfl, rfl, by decide, ?_⟩, ⟨by decide, by decide, ?_⟩, ?_⟩
  · have := (ws_backoff_formula_and_single_fatal_log.1 WSState.afterConnect
      rfl rfl (by decide)).1
    simpa using this
  · exact ((ws_backoff_formula_and_single_fatal_log.2.1
      (runWS (List.take 20 wsExhaustionTrace)) (by decide) (by decide)).2.2)
  · exact ws_backoff_formula_and_single_fatal_log.2.2 wsExhaustionTrace

end Veweb
